import Mathlib

/-!
Shallow embedding of the attribute-animation binding engine of
`Source/Engine/Scene/Animatable.cpp` (Urho3D).  Pointers are modelled by
identity fields (`id : Nat`) carried inside the structures, C++ `HashMap`
by association lists, C++ `HashSet` by duplicate-free insertion lists,
`float` quantities (speeds, time steps) by `Int` — the engine only stores,
copies and compares them; curve math is out of scope per the spec.
Diagnostic output (`LOGERROR`) and the empty virtual hooks
(`OnAttributeAnimationAdded` / `OnAttributeAnimationRemoved`) are made
observable as counters, and attribute writes performed during an update
pass as a log of written attribute names.
-/

namespace Animatable

/-- Attribute mode flag for network replication (`AM_NET` in AttributeDefs). -/
def AM_NET : Nat := 2

/-- Attribute descriptor: `AttributeInfo` (name, value type, mode flags). -/
structure AttributeInfo where
  name : String
  type : Nat
  mode : Nat
  deriving DecidableEq, Repr

/-- Animation curve resource: `AttributeAnimation`.  `id` models object
identity (pointer comparison); `objectAnimation` is the optional bundle
back-reference (`GetObjectAnimation()`), as the owning bundle's identity. -/
structure AttributeAnimation where
  id : Nat
  valueType : Nat
  objectAnimation : Option Nat
  looped : Bool
  duration : Int
  deriving DecidableEq, Repr

/-- Animation bundle resource: `ObjectAnimation`.  Modelled from the spec at
its interface (ObjectAnimation.cpp is not among the sources): `Entries()`
yields (attribute name, curve, speed) triples, `Name()` is the resource
name (empty means anonymous). -/
structure ObjectAnimation where
  id : Nat
  name : String
  attributeAnimations : List (String × AttributeAnimation × Int)
  deriving DecidableEq, Repr

/-- Binding instance: `AttributeAnimationInstance`.  Its internal playback
state (`elapsed`) is modelled from the spec (AttributeAnimationInstance.cpp
is not among the sources): elapsed/completion state opaque to the binder,
advanced by `timeStep * speed` on update. -/
structure AttributeAnimationInstance where
  attributeInfo : AttributeInfo
  attributeAnimation : AttributeAnimation
  speed : Int
  elapsed : Int
  deriving DecidableEq, Repr

/-- State of one `Animatable` object.  `attributes` models `GetAttributes()`
(a possibly-null pointer to the schema's attribute list), `networkAttributes`
models `GetNetworkAttributes()`.  `addedHooks`, `removedHooks`, `errors` and
`writes` record the observable events described in the module comment. -/
structure State where
  animationEnabled : Bool
  objectAnimation : Option ObjectAnimation
  attributeAnimationInstances : List (String × AttributeAnimationInstance)
  animatedNetworkAttributes : List AttributeInfo
  attributes : Option (List AttributeInfo)
  networkAttributes : List AttributeInfo
  addedHooks : Nat
  removedHooks : Nat
  errors : Nat
  writes : List String
  deriving DecidableEq, Repr

/-- Search a descriptor list by name, mirroring the linear scans
`for (...; i != attributes->End(); ++i) if (name == (*i).name_)`. -/
def findByName (l : List AttributeInfo) (name : String) : Option AttributeInfo :=
  l.find? (fun a => a.name = name)

/-- HashSet::Insert on the replication index: a set insert, no duplicate. -/
def insertSet (l : List AttributeInfo) (a : AttributeInfo) : List AttributeInfo :=
  if a ∈ l then l else l ++ [a]

/-- HashSet::Erase on the replication index. -/
def eraseSet (l : List AttributeInfo) (a : AttributeInfo) : List AttributeInfo :=
  l.filter (fun x => x ≠ a)

/-- HashMap lookup: `Animatable::GetAttributeAnimationInstance`. -/
def getAttributeAnimationInstance (s : State) (name : String) :
    Option AttributeAnimationInstance :=
  (s.attributeAnimationInstances.find? (fun p => p.1 = name)).map Prod.snd

/-- HashMap `operator[]` followed by assignment: replace the value at the key
when present, append the pair otherwise. -/
def assocSet (l : List (String × AttributeAnimationInstance)) (name : String)
    (v : AttributeAnimationInstance) : List (String × AttributeAnimationInstance) :=
  if l.any (fun p => p.1 = name) then
    l.map (fun p => if p.1 = name then (name, v) else p)
  else
    l ++ [(name, v)]

/-- Descriptor resolution inside `Animatable::SetAttributeAnimation`: reuse
the existing instance's descriptor when one exists for the name, else look
the name up in the schema's attribute list (null list means no resolution). -/
def resolvedAttributeInfo (s : State) (name : String) : Option AttributeInfo :=
  match getAttributeAnimationInstance s name with
  | some i => some i.attributeInfo
  | none =>
    match s.attributes with
    | none => none
    | some attrs => findByName attrs name

/-- Animatable::SetAttributeAnimation.  A non-null curve binds (or, for the
identical curve, only updates speed in place via the instance's `SetSpeed`,
modelled from the spec as mutating `speed` alone); a null curve unbinds.
Both of the validation-failure returns (`LOGERROR` then `return`) bump the
`errors` counter and change nothing else. -/
def setAttributeAnimation (s : State) (name : String)
    (anim : Option AttributeAnimation) (speed : Int) : State :=
  let currentInstance := getAttributeAnimationInstance s name
  match anim with
  | some a =>
    let sameCurve : Bool :=
      match currentInstance with
      | some i => i.attributeAnimation == a
      | none => false
    if sameCurve then
      { s with attributeAnimationInstances :=
          (s.attributeAnimationInstances.map
            (fun p => if p.1 = name then (p.1, { p.2 with speed := speed }) else p)) }
    else
      match resolvedAttributeInfo s name with
      | none => { s with errors := s.errors + 1 }
      | some info =>
        if a.valueType ≠ info.type then
          { s with errors := s.errors + 1 }
        else
          let s1 :=
            if info.mode &&& AM_NET ≠ 0 then
              match findByName s.networkAttributes name with
              | some na =>
                { s with animatedNetworkAttributes :=
                    insertSet s.animatedNetworkAttributes na }
              | none => s
            else s
          let s2 :=
            { s1 with attributeAnimationInstances :=
                (assocSet s1.attributeAnimationInstances name
                  { attributeInfo := info, attributeAnimation := a,
                    speed := speed, elapsed := 0 }) }
          if currentInstance = none then
            { s2 with addedHooks := s2.addedHooks + 1 }
          else s2
  | none =>
    match currentInstance with
    | none => s
    | some i =>
      let s1 :=
        if i.attributeInfo.mode &&& AM_NET ≠ 0 then
          match findByName s.networkAttributes name with
          | some na =>
            { s with animatedNetworkAttributes :=
                eraseSet s.animatedNetworkAttributes na }
          | none => s
        else s
      { s1 with
          attributeAnimationInstances :=
            s1.attributeAnimationInstances.filter (fun p => p.1 ≠ name),
          removedHooks := s1.removedHooks + 1 }

/-- Names of the bound instances whose curve's bundle back-reference equals
the given bundle (by identity): the collection loop at the top of
`Animatable::OnObjectAnimationRemoved`. -/
def bundleOwnedNames (s : State) (b : ObjectAnimation) : List String :=
  ((s.attributeAnimationInstances.filter
    (fun p => p.2.attributeAnimation.objectAnimation = some b.id)).map Prod.fst)

/-- Animatable::OnObjectAnimationRemoved: collect the names of the bound
instances whose curve's bundle back-reference equals the given bundle
(by identity), then unbind each via `SetAttributeAnimation(name, 0)`.
The C++ null-pointer guard is the `Option` match. -/
def onObjectAnimationRemoved (s : State) (oa : Option ObjectAnimation) : State :=
  match oa with
  | none => s
  | some b =>
    (bundleOwnedNames s b).foldl (fun st n => setAttributeAnimation st n none 1) s

/-- Animatable::OnObjectAnimationAdded: bind every (name, curve, speed)
entry of the bundle via `SetAttributeAnimation`.  The bundle's entry list
with per-entry speed models `GetAttributeAnimations()` together with
`GetAttributeAnimationSpeed(name)`. -/
def onObjectAnimationAdded (s : State) (oa : Option ObjectAnimation) : State :=
  match oa with
  | none => s
  | some b =>
    b.attributeAnimations.foldl
      (fun st e => setAttributeAnimation st e.1 (some e.2.1) e.2.2) s

/-- Animatable::SetObjectAnimation: identity no-op check, removal of the
old bundle's bindings, replacement of the reference, import of the new
bundle's bindings. -/
def setObjectAnimation (s : State) (oa : Option ObjectAnimation) : State :=
  if oa = s.objectAnimation then s
  else
    let s1 := onObjectAnimationRemoved s s.objectAnimation
    let s2 := { s1 with objectAnimation := oa }
    onObjectAnimationAdded s2 oa

/-- Modelled from the spec: AttributeAnimationInstance::Update
(AttributeAnimationInstance.cpp is not among the sources).  Advances the
instance's playback time by `timeStep * speed`; the second component is the
curve's completion condition for this tick (non-looping curve at or past its
end).  The attribute write it performs is logged by the caller; the written
value itself is curve math, out of scope per the spec. -/
def instanceUpdate (inst : AttributeAnimationInstance) (timeStep : Int) :
    AttributeAnimationInstance × Bool :=
  let elapsed2 := inst.elapsed + timeStep * inst.speed
  ({ inst with elapsed := elapsed2 },
   !inst.attributeAnimation.looped && decide (inst.attributeAnimation.duration ≤ elapsed2))

/-- Animatable::UpdateAttributeAnimations: early-out when animation is
disabled; otherwise advance every instance (each advance writes its value to
the object — logged in `writes` — and is checked for completion), collecting
finished descriptor names in a separate list, and only after the full scan
unbind each finished name via `SetAttributeAnimation(name, 0)`. -/
def updateAttributeAnimations (s : State) (timeStep : Int) : State :=
  if !s.animationEnabled then s
  else
    let scanned :=
      s.attributeAnimationInstances.map (fun p => (p.1, instanceUpdate p.2 timeStep))
    let finishedNames :=
      ((scanned.filter (fun p => p.2.2)).map (fun p => p.2.1.attributeInfo.name))
    let s1 :=
      { s with
          attributeAnimationInstances := (scanned.map (fun p => (p.1, p.2.1))),
          writes := (s.writes ++ scanned.map (fun p => p.2.1.attributeInfo.name)) }
    finishedNames.foldl (fun st n => setAttributeAnimation st n none 1) s1

/-- Animatable::IsAnimatedNetworkAttribute: membership in the derived set. -/
def isAnimatedNetworkAttribute (s : State) (attrInfo : AttributeInfo) : Bool :=
  s.animatedNetworkAttributes.contains attrInfo

/-- One "attributeAnimation" child of a document being loaded: its `name`
attribute, the result of constructing and loading its curve (`none` models a
failed nested `AttributeAnimation::LoadXML`), and its `speed` attribute. -/
structure AttrAnimXML where
  name : String
  curve : Option AttributeAnimation
  speed : Int
  deriving DecidableEq, Repr

/-- A document handed to `Animatable::LoadXML`: whether the base reflective
`Serializable::LoadXML` succeeds on it, the optional "objectAnimation" child
(inner `none` models a failed nested `ObjectAnimation::LoadXML`), and the
"attributeAnimation" children in document order. -/
structure XMLSource where
  baseLoadOk : Bool
  objectAnimationChild : Option (Option ObjectAnimation)
  attributeAnimationChildren : List AttrAnimXML
  deriving DecidableEq, Repr

/-- The "attributeAnimation" loop at the end of `Animatable::LoadXML`: a
failed nested curve load aborts with failure, otherwise each child is bound
via `SetAttributeAnimation(name, curve, speed)`. -/
def loadAttrChildren (s : State) : List AttrAnimXML → State × Bool
  | [] => (s, true)
  | c :: rest =>
    match c.curve with
    | none => (s, false)
    | some a => loadAttrChildren (setAttributeAnimation s c.name (some a) c.speed) rest

/-- Animatable::LoadXML: base reflective load, then `SetObjectAnimation(0)`
followed by a raw `attributeAnimationInstances_.Clear()`, then the optional
bundle child (loaded into a fresh bundle and installed via
`SetObjectAnimation`), then the "attributeAnimation" children. -/
def loadXML (s : State) (src : XMLSource) : State × Bool :=
  if !src.baseLoadOk then (s, false)
  else
    let s1 := setObjectAnimation s none
    let s2 := { s1 with attributeAnimationInstances := [] }
    match src.objectAnimationChild with
    | some none => (s2, false)
    | some (some oa) =>
      loadAttrChildren (setObjectAnimation s2 (some oa)) src.attributeAnimationChildren
    | none => loadAttrChildren s2 src.attributeAnimationChildren

/-- The animation-related children emitted by `Animatable::SaveXML`: the
optional inline "objectAnimation" child and the standalone
"attributeAnimation" children as (name, curve, speed) triples.  The nested
`ObjectAnimation::SaveXML` / `AttributeAnimation::SaveXML` delegate calls
are modelled from the spec as succeeding; their failure would only abort
the save, not change what is selected for emission. -/
structure SaveResult where
  objectAnimationChild : Option ObjectAnimation
  attributeAnimationChildren : List (String × AttributeAnimation × Int)
  deriving DecidableEq, Repr

/-- Animatable::SaveXML: the inline bundle child is emitted exactly when a
bundle is set and its resource name is empty; a standalone child is emitted
for each instance whose curve has no bundle back-reference
(`attributeAnimation->GetObjectAnimation()` null), named by its descriptor. -/
def saveXML (s : State) : SaveResult :=
  { objectAnimationChild :=
      match s.objectAnimation with
      | some b => if b.name = "" then some b else none
      | none => none,
    attributeAnimationChildren :=
      ((s.attributeAnimationInstances.filter
          (fun p => p.2.attributeAnimation.objectAnimation = none)).map
        (fun p => (p.2.attributeInfo.name, p.2.attributeAnimation, p.2.speed))) }

/-- A resource reference handed to the reflective "Object Animation"
attribute setter. -/
structure ResourceRef where
  name : String
  deriving DecidableEq, Repr

/-- ResourceCache::GetResource for bundles: lookup by resource name, null
(`none`) when the cache cannot resolve the name. -/
def cacheGetResource (cache : List (String × ObjectAnimation)) (name : String) :
    Option ObjectAnimation :=
  (cache.find? (fun p => p.1 = name)).map Prod.snd

/-- Animatable::SetObjectAnimationAttr: a non-empty name is resolved through
the resource cache and the (possibly null) result installed via
`SetObjectAnimation`; an empty name does nothing. -/
def setObjectAnimationAttr (cache : List (String × ObjectAnimation))
    (value : ResourceRef) (s : State) : State :=
  if value.name ≠ "" then
    setObjectAnimation s (cacheGetResource cache value.name)
  else s

/-! ### Concrete fixtures

A two-attribute schema ("X" is network-replicated, "Y" is not), three
curves (two free-standing, one carrying a bundle back-reference), an
anonymous and a named bundle, and a fresh binder state. -/

def attrX : AttributeInfo := ⟨"X", 1, 3⟩

def attrY : AttributeInfo := ⟨"Y", 2, 1⟩

def curveA : AttributeAnimation := ⟨1, 1, none, false, 10⟩

def curveB : AttributeAnimation := ⟨2, 1, none, false, 5⟩

def curveOf7 : AttributeAnimation := ⟨3, 1, some 7, false, 10⟩

def bundleAnon : ObjectAnimation := ⟨7, "", [("X", curveOf7, 3)]⟩

def bundleNamed : ObjectAnimation := ⟨8, "Objects/Anim.xml", [("X", curveOf7, 3)]⟩

def s0 : State := ⟨true, none, [], [], some [attrX, attrY], [attrX], 0, 0, 0, []⟩

/-- A binder with the anonymous bundle installed. -/
def withBundle : State := setObjectAnimation s0 (some bundleAnon)

def curveY : AttributeAnimation := ⟨4, 2, none, false, 100⟩

/-- A paused binder holding one partly played instance. -/
def sPaused : State :=
  { s0 with animationEnabled := false,
            attributeAnimationInstances := [("X", ⟨attrX, curveA, 1, 4⟩)],
            animatedNetworkAttributes := [attrX] }

/-- A binder with one directly bound, network-replicated attribute. -/
def preLoad : State := setAttributeAnimation s0 "X" (some curveA) 1

/-- A well-formed document declaring no animations at all. -/
def emptyDoc : XMLSource := ⟨true, none, []⟩

/-- A binder (with no active bundle) holding a direct binding whose curve
carries a back-reference to bundle 7. -/
def directBundleCurve : State := setAttributeAnimation s0 "X" (some curveOf7) 1

/-- A binder holding one partly played instance (elapsed 4) on "X". -/
def advX : State :=
  { s0 with attributeAnimationInstances := [("X", ⟨attrX, curveA, 1, 4⟩)],
            animatedNetworkAttributes := [attrX], addedHooks := 1 }

/-- A binder holding one instance about to finish ("X", elapsed 9 of 10)
and one far from finishing ("Y"). -/
def tickState : State :=
  { s0 with attributeAnimationInstances :=
              [("X", ⟨attrX, curveA, 1, 9⟩), ("Y", ⟨attrY, curveY, 1, 0⟩)],
            animatedNetworkAttributes := [attrX], addedHooks := 2 }

/-- A document carrying an anonymous bundle and one standalone curve. -/
def fullDoc : XMLSource := ⟨true, some (some bundleAnon), [⟨"Y", some curveY, 2⟩]⟩

/-- Every curve a document can introduce: the entries of its bundle child
plus the curves of its "attributeAnimation" children. -/
def docCurves (src : XMLSource) : List AttributeAnimation :=
  (match src.objectAnimationChild with
   | some (some oa) => oa.attributeAnimations.map (fun e => e.2.1)
   | _ => []) ++ src.attributeAnimationChildren.filterMap (fun c => c.curve)

/-- The amended claim C4's prescription for Save: one standalone
"attributeAnimation" child (name, curve, speed) for exactly those Binding
Instances whose curve carries no bundle back-reference at all, in binding
order; a binding whose curve belongs to ANY bundle — the active one or a
foreign one — is skipped. -/
def standaloneSaveSpec (s : State) : List (String × AttributeAnimation × Int) :=
  ((s.attributeAnimationInstances.filter
      (fun p => p.2.attributeAnimation.objectAnimation = none)).map
    (fun p => (p.2.attributeInfo.name, p.2.attributeAnimation, p.2.speed)))

/-! ### Supporting lemmas about the bind/unbind core -/

/-- SetAttributeAnimation never touches the bundle reference. -/
theorem bind_objectAnimation (st : State) (n : String) (anim : Option AttributeAnimation)
    (sp : Int) : (setAttributeAnimation st n anim sp).objectAnimation = st.objectAnimation := by
  unfold setAttributeAnimation
  dsimp only
  repeat' split
  all_goals rfl

/-- SetAttributeAnimation never touches the write log. -/
theorem bind_writes (st : State) (n : String) (anim : Option AttributeAnimation)
    (sp : Int) : (setAttributeAnimation st n anim sp).writes = st.writes := by
  unfold setAttributeAnimation
  dsimp only
  repeat' split
  all_goals rfl

/-- A bind (non-null curve) never fires the removal hook. -/
theorem bind_removedHooks (st : State) (n : String) (a : AttributeAnimation)
    (sp : Int) : (setAttributeAnimation st n (some a) sp).removedHooks = st.removedHooks := by
  unfold setAttributeAnimation
  dsimp only
  repeat' split
  all_goals rfl

/-- An unbind (null curve) leaves the bindings map exactly filtered by the
unbound name (a no-op filter when the name is not bound). -/
theorem unbind_instances (st : State) (n : String) (sp : Int) :
    (setAttributeAnimation st n none sp).attributeAnimationInstances =
      st.attributeAnimationInstances.filter (fun p => p.1 ≠ n) := by
  unfold setAttributeAnimation
  cases h : getAttributeAnimationInstance st n with
  | none =>
    simp only [h]
    have hall : ∀ p ∈ st.attributeAnimationInstances, ¬p.1 = n := by
      intro p hp hpn
      have : (st.attributeAnimationInstances.find? (fun p => p.1 = n)).isSome := by
        rw [List.find?_isSome]
        exact ⟨p, hp, by simpa using hpn⟩
      rw [getAttributeAnimationInstance] at h
      rcases Option.map_eq_none.mp h with h2
      rw [h2] at this
      simp at this
    exact (List.filter_eq_self.mpr (by intro p hp; simpa using hall p hp)).symm
  | some i =>
    simp only [h]
    repeat' split
    all_goals rfl

/-- An unbind (null curve) never touches the write log or the bundle: it is
covered by `bind_writes` and `bind_objectAnimation`; this lemma records the
removal-hook count when the name is bound. -/
theorem unbind_removedHooks_present (st : State) (n : String) (sp : Int)
    (i : AttributeAnimationInstance) (h : getAttributeAnimationInstance st n = some i) :
    (setAttributeAnimation st n none sp).removedHooks = st.removedHooks + 1 := by
  simp only [setAttributeAnimation, h]
  repeat' split
  all_goals rfl

/-- Unbinding a name that is not bound is a complete no-op. -/
theorem unbind_absent (st : State) (n : String) (sp : Int)
    (h : getAttributeAnimationInstance st n = none) :
    setAttributeAnimation st n none sp = st := by
  simp only [setAttributeAnimation, h]

/-- Lookup in the bindings map after the in-place speed rewrite. -/
theorem find_speed_update (l : List (String × AttributeAnimationInstance)) (n : String)
    (sp : Int) :
    (l.map (fun p => if p.1 = n then (p.1, { p.2 with speed := sp }) else p)).find?
        (fun p => p.1 = n) =
      (l.find? (fun p => p.1 = n)).map (fun p => (p.1, { p.2 with speed := sp })) := by
  induction l with
  | nil => rfl
  | cons hd tl ih => by_cases h : hd.1 = n <;> simp [List.find?, h, ih]

/-- The in-place speed rewrite of the map does not touch other names. -/
theorem find_speed_update_other (l : List (String × AttributeAnimationInstance))
    (n m : String) (sp : Int) (hnm : m ≠ n) :
    (l.map (fun p => if p.1 = n then (p.1, { p.2 with speed := sp }) else p)).find?
        (fun p => p.1 = m) =
      l.find? (fun p => p.1 = m) := by
  induction l with
  | nil => rfl
  | cons hd tl ih =>
    by_cases h : hd.1 = n
    · have h3 : ¬n = m := fun e => hnm e.symm
      simp [List.find?, h, h3, ih]
    · by_cases h2 : hd.1 = m <;> simp [List.find?, h, h2, hnm, ih]

/-- Lookup in the key-replacing branch of `assocSet`. -/
theorem find_map_replace (l : List (String × AttributeAnimationInstance)) (n : String)
    (v : AttributeAnimationInstance) :
    (l.map (fun p => if p.1 = n then (n, v) else p)).find? (fun p => p.1 = n) =
      (l.find? (fun p => p.1 = n)).map (fun _ => (n, v)) := by
  induction l with
  | nil => rfl
  | cons hd tl ih => by_cases h : hd.1 = n <;> simp [List.find?, h, ih]

/-- Lookup of the written key after `assocSet` always yields the new pair. -/
theorem find_assocSet (l : List (String × AttributeAnimationInstance)) (n : String)
    (v : AttributeAnimationInstance) :
    (assocSet l n v).find? (fun p => p.1 = n) = some (n, v) := by
  unfold assocSet
  split
  · next h =>
    rw [find_map_replace]
    have hs : (l.find? (fun p => decide (p.1 = n))).isSome := by
      rw [List.find?_isSome]
      rcases List.any_eq_true.mp h with ⟨x, hx, hpx⟩
      exact ⟨x, hx, hpx⟩
    rcases Option.isSome_iff_exists.mp hs with ⟨x, hx⟩
    rw [hx]
    rfl
  · next h =>
    have hnone : l.find? (fun p => decide (p.1 = n)) = none := by
      rw [List.find?_eq_none]
      intro x hx hpx
      exact h (List.any_eq_true.mpr ⟨x, hx, hpx⟩)
    rw [List.find?_append, hnone]
    simp [List.find?]

/-- A bind that passes validation (resolved descriptor, matching value type,
not the identical-curve shortcut) writes exactly the fresh instance into the
bindings map. -/
theorem bind_success_instances (s : State) (n : String) (a : AttributeAnimation) (sp : Int)
    (info : AttributeInfo) (hres : resolvedAttributeInfo s n = some info)
    (hty : a.valueType = info.type)
    (hnc : ∀ i, getAttributeAnimationInstance s n = some i → i.attributeAnimation ≠ a) :
    (setAttributeAnimation s n (some a) sp).attributeAnimationInstances =
      assocSet s.attributeAnimationInstances n
        { attributeInfo := info, attributeAnimation := a, speed := sp, elapsed := 0 } := by
  have hty2 : ¬a.valueType ≠ info.type := fun hh => hh hty
  cases hci : getAttributeAnimationInstance s n with
  | none =>
    simp only [setAttributeAnimation, hci, hres, if_neg hty2]
    simp only [Bool.false_eq_true, if_false]
    repeat' split
    all_goals rfl
  | some i =>
    have hsc : (i.attributeAnimation == a) = false := by simpa using hnc i hci
    simp only [setAttributeAnimation, hci, hsc, hres, if_neg hty2]
    simp only [Bool.false_eq_true, if_false]
    repeat' split
    all_goals rfl

/-- Filtering by one key then looking up a different key is the plain lookup. -/
theorem find_filter_ne (l : List (String × AttributeAnimationInstance)) (n m : String)
    (hnm : m ≠ n) :
    (l.filter (fun p => p.1 ≠ n)).find? (fun p => p.1 = m) =
      l.find? (fun p => p.1 = m) := by
  induction l with
  | nil => rfl
  | cons hd tl ih =>
    by_cases h : hd.1 = n
    · have h2 : ¬hd.1 = m := by rw [h]; exact fun e => hnm e.symm
      rw [List.filter_cons_of_neg (by simp [h]), List.find?_cons_of_neg _ (by simp [h2]), ih]
    · rw [List.filter_cons_of_pos (by simp [h])]
      by_cases h2 : hd.1 = m
      · rw [List.find?_cons_of_pos _ (by simp [h2]), List.find?_cons_of_pos _ (by simp [h2])]
      · rw [List.find?_cons_of_neg _ (by simp [h2]), List.find?_cons_of_neg _ (by simp [h2]),
          ih]

/-- Unbinding one name leaves lookups of every other name unchanged. -/
theorem getInst_unbind_other (st : State) (n m : String) (sp : Int) (hnm : m ≠ n) :
    getAttributeAnimationInstance (setAttributeAnimation st n none sp) m =
      getAttributeAnimationInstance st m := by
  rw [getAttributeAnimationInstance, getAttributeAnimationInstance, unbind_instances,
    find_filter_ne _ _ _ hnm]

/-- Unbinding a list of names filters the bindings map by exactly those
names. -/
theorem foldl_unbind_instances (names : List String) (st : State) :
    (names.foldl (fun st2 n => setAttributeAnimation st2 n none 1)
        st).attributeAnimationInstances =
      st.attributeAnimationInstances.filter (fun p => !names.contains p.1) := by
  induction names generalizing st with
  | nil => simp
  | cons n rest ih =>
    rw [List.foldl_cons, ih, unbind_instances, List.filter_filter]
    congr 1
    funext p
    by_cases h : p.1 = n <;> simp [h]

/-- A fold of unbinds never touches the write log. -/
theorem foldl_unbind_writes (names : List String) (st : State) :
    (names.foldl (fun st2 n => setAttributeAnimation st2 n none 1) st).writes =
      st.writes := by
  induction names generalizing st with
  | nil => rfl
  | cons n rest ih => rw [List.foldl_cons, ih, bind_writes]

/-- A fold of unbinds never touches the bundle reference. -/
theorem foldl_unbind_objectAnimation (names : List String) (st : State) :
    (names.foldl (fun st2 n => setAttributeAnimation st2 n none 1) st).objectAnimation =
      st.objectAnimation := by
  induction names generalizing st with
  | nil => rfl
  | cons n rest ih => rw [List.foldl_cons, ih, bind_objectAnimation]

/-- A fold of binds (bundle import) never fires the removal hook. -/
theorem foldl_bind_removedHooks (entries : List (String × AttributeAnimation × Int))
    (st : State) :
    (entries.foldl (fun st2 e => setAttributeAnimation st2 e.1 (some e.2.1) e.2.2)
        st).removedHooks = st.removedHooks := by
  induction entries generalizing st with
  | nil => rfl
  | cons e rest ih => rw [List.foldl_cons, ih, bind_removedHooks]

/-- A fold of binds (bundle import) never touches the bundle reference. -/
theorem foldl_bind_objectAnimation (entries : List (String × AttributeAnimation × Int))
    (st : State) :
    (entries.foldl (fun st2 e => setAttributeAnimation st2 e.1 (some e.2.1) e.2.2)
        st).objectAnimation = st.objectAnimation := by
  induction entries generalizing st with
  | nil => rfl
  | cons e rest ih => rw [List.foldl_cons, ih, bind_objectAnimation]

/-- Bundle import never touches the bundle reference itself. -/
theorem added_objectAnimation (st : State) (oa : Option ObjectAnimation) :
    (onObjectAnimationAdded st oa).objectAnimation = st.objectAnimation := by
  cases oa with
  | none => rfl
  | some b => exact foldl_bind_objectAnimation b.attributeAnimations st

/-- Bundle import never fires the removal hook. -/
theorem added_removedHooks (st : State) (oa : Option ObjectAnimation) :
    (onObjectAnimationAdded st oa).removedHooks = st.removedHooks := by
  cases oa with
  | none => rfl
  | some b => exact foldl_bind_removedHooks b.attributeAnimations st

/-- Unbinding a duplicate-free list of names that are all currently bound
fires the removal hook exactly once per name. -/
theorem foldl_unbind_removedHooks (names : List String) (st : State)
    (hpres : ∀ n ∈ names, (getAttributeAnimationInstance st n).isSome)
    (hnd : names.Nodup) :
    (names.foldl (fun st2 n => setAttributeAnimation st2 n none 1) st).removedHooks =
      st.removedHooks + names.length := by
  induction names generalizing st with
  | nil => rfl
  | cons n rest ih =>
    rcases Option.isSome_iff_exists.mp (hpres n (List.mem_cons_self n rest)) with ⟨i, hi⟩
    have hnd2 := List.nodup_cons.mp hnd
    have hrest : ∀ m ∈ rest,
        (getAttributeAnimationInstance (setAttributeAnimation st n none 1) m).isSome := by
      intro m hm
      have hmn : m ≠ n := fun e => hnd2.1 (e ▸ hm)
      rw [getInst_unbind_other st n m 1 hmn]
      exact hpres m (List.mem_cons_of_mem n hm)
    rw [List.foldl_cons, ih _ hrest hnd2.2, unbind_removedHooks_present st n 1 i hi,
      List.length_cons]
    omega

/-- Every collected bundle-owned name is in fact bound. -/
theorem bundleOwnedNames_present (s : State) (b : ObjectAnimation) :
    ∀ n ∈ bundleOwnedNames s b, (getAttributeAnimationInstance s n).isSome := by
  intro n hn
  rcases List.mem_map.mp hn with ⟨p, hp, he⟩
  have hp2 := List.mem_filter.mp hp
  have hs : (s.attributeAnimationInstances.find? (fun p => p.1 = n)).isSome := by
    rw [List.find?_isSome]
    exact ⟨p, hp2.1, by simp [he]⟩
  rcases Option.isSome_iff_exists.mp hs with ⟨q, hq⟩
  rw [getAttributeAnimationInstance, hq]
  rfl

/-- With duplicate-free binding keys the collected bundle-owned names are
duplicate-free as well. -/
theorem bundleOwnedNames_nodup (s : State) (b : ObjectAnimation)
    (hnd : (s.attributeAnimationInstances.map Prod.fst).Nodup) :
    (bundleOwnedNames s b).Nodup := by
  unfold bundleOwnedNames
  exact List.Nodup.sublist ((List.filter_sublist _).map Prod.fst) hnd

/-- An element of `assocSet l n v` is the new pair or an element of `l`. -/
theorem mem_assocSet (l : List (String × AttributeAnimationInstance)) (n : String)
    (v : AttributeAnimationInstance) (p : String × AttributeAnimationInstance)
    (hp : p ∈ assocSet l n v) : p = (n, v) ∨ p ∈ l := by
  unfold assocSet at hp
  split at hp
  · rcases List.mem_map.mp hp with ⟨q, hq, he⟩
    by_cases h : q.1 = n
    · left
      rw [← he, if_pos h]
    · right
      rw [← he, if_neg h]
      exact hq
  · rcases List.mem_append.mp hp with h | h
    · right
      exact h
    · left
      simpa using h

/-- A bind that fails validation only bumps the error counter. -/
theorem bind_fail_state (s : State) (n : String) (a : AttributeAnimation) (sp : Int)
    (hnc : ∀ i, getAttributeAnimationInstance s n = some i → i.attributeAnimation ≠ a)
    (hfail : resolvedAttributeInfo s n = none ∨
      ∃ info, resolvedAttributeInfo s n = some info ∧ a.valueType ≠ info.type) :
    setAttributeAnimation s n (some a) sp = { s with errors := s.errors + 1 } := by
  rcases hfail with hres | ⟨info, hres, hty⟩
  · have hci : getAttributeAnimationInstance s n = none := by
      cases hci : getAttributeAnimationInstance s n with
      | none => rfl
      | some i => rw [resolvedAttributeInfo, hci] at hres; cases hres
    simp only [setAttributeAnimation, hci, hres]
    simp only [Bool.false_eq_true, if_false]
  · cases hci : getAttributeAnimationInstance s n with
    | none =>
      simp only [setAttributeAnimation, hci, hres, if_pos hty]
      simp only [Bool.false_eq_true, if_false]
    | some i =>
      have hsc : (i.attributeAnimation == a) = false := by simpa using hnc i hci
      simp only [setAttributeAnimation, hci, hsc, hres, if_pos hty]
      simp

/-- Every instance present after a SetAttributeAnimation call wraps either a
curve already wrapped before the call or the curve being bound: no other
curve can enter the bindings map. -/
theorem bind_preserves_curves (P : AttributeAnimation → Prop) (st : State) (n : String)
    (anim : Option AttributeAnimation) (sp : Int)
    (hst : ∀ p ∈ st.attributeAnimationInstances, P p.2.attributeAnimation)
    (ha : ∀ a, anim = some a → P a) :
    ∀ p ∈ (setAttributeAnimation st n anim sp).attributeAnimationInstances,
      P p.2.attributeAnimation := by
  cases anim with
  | none =>
    intro p hp
    rw [unbind_instances] at hp
    exact hst p (List.mem_of_mem_filter hp)
  | some a =>
    have hPa : P a := ha a rfl
    cases hci : getAttributeAnimationInstance st n with
    | some i =>
      by_cases hsc : i.attributeAnimation = a
      · have hscb : (i.attributeAnimation == a) = true := by simpa using hsc
        have hred : setAttributeAnimation st n (some a) sp =
            { st with attributeAnimationInstances :=
                (st.attributeAnimationInstances.map
                  (fun p => if p.1 = n then (p.1, { p.2 with speed := sp }) else p)) } := by
          simp only [setAttributeAnimation, hci, hscb]
          rfl
        rw [hred]
        intro p hp
        rcases List.mem_map.mp hp with ⟨q, hq, he⟩
        by_cases h : q.1 = n
        · rw [← he, if_pos h]
          exact hst q hq
        · rw [← he, if_neg h]
          exact hst q hq
      · cases hres : resolvedAttributeInfo st n with
        | none =>
          rw [resolvedAttributeInfo, hci] at hres
          cases hres
        | some info =>
          by_cases hty : a.valueType = info.type
          · have hbi := bind_success_instances st n a sp info hres hty
              (fun j hj => by
                rw [hci] at hj
                injection hj with e
                rw [← e]
                exact hsc)
            intro p hp
            rw [hbi] at hp
            rcases mem_assocSet _ _ _ p hp with hnew | hold
            · rw [hnew]
              exact hPa
            · exact hst p hold
          · rw [bind_fail_state st n a sp
              (fun j hj => by
                rw [hci] at hj
                injection hj with e
                rw [← e]
                exact hsc)
              (Or.inr ⟨info, hres, hty⟩)]
            exact hst
    | none =>
      have hnc : ∀ j, getAttributeAnimationInstance st n = some j →
          j.attributeAnimation ≠ a := by
        intro j hj
        rw [hci] at hj
        cases hj
      cases hres : resolvedAttributeInfo st n with
      | none =>
        rw [bind_fail_state st n a sp hnc (Or.inl hres)]
        exact hst
      | some info =>
        by_cases hty : a.valueType = info.type
        · have hbi := bind_success_instances st n a sp info hres hty hnc
          intro p hp
          rw [hbi] at hp
          rcases mem_assocSet _ _ _ p hp with hnew | hold
          · rw [hnew]
            exact hPa
          · exact hst p hold
        · rw [bind_fail_state st n a sp hnc (Or.inr ⟨info, hres, hty⟩)]
          exact hst

/-- Importing bundle entries can only introduce the entries' own curves. -/
theorem foldl_bind_preserves_curves (P : AttributeAnimation → Prop)
    (entries : List (String × AttributeAnimation × Int)) (st : State)
    (hst : ∀ p ∈ st.attributeAnimationInstances, P p.2.attributeAnimation)
    (hentries : ∀ e ∈ entries, P e.2.1) :
    ∀ p ∈ (entries.foldl
        (fun st2 e => setAttributeAnimation st2 e.1 (some e.2.1) e.2.2)
          st).attributeAnimationInstances,
      P p.2.attributeAnimation := by
  induction entries generalizing st with
  | nil => exact hst
  | cons e rest ih =>
    rw [List.foldl_cons]
    exact ih _
      (bind_preserves_curves P st e.1 (some e.2.1) e.2.2 hst
        (fun a hae => by
          injection hae with e2
          rw [← e2]
          exact hentries e (List.mem_cons_self e rest)))
      (fun e2 he2 => hentries e2 (List.mem_cons_of_mem e he2))

/-- SetObjectAnimation always installs exactly the requested bundle
reference. -/
theorem setObjectAnimation_ref (s : State) (oa : Option ObjectAnimation) :
    (setObjectAnimation s oa).objectAnimation = oa := by
  simp only [setObjectAnimation]
  split
  · next h => exact h.symm
  · rw [added_objectAnimation]

/-- SetObjectAnimation can only introduce curves drawn from the installed
bundle's own entries. -/
theorem setObjectAnimation_preserves_curves (P : AttributeAnimation → Prop) (st : State)
    (oa : Option ObjectAnimation)
    (hst : ∀ p ∈ st.attributeAnimationInstances, P p.2.attributeAnimation)
    (hoa : ∀ b, oa = some b → ∀ e ∈ b.attributeAnimations, P e.2.1) :
    ∀ p ∈ (setObjectAnimation st oa).attributeAnimationInstances,
      P p.2.attributeAnimation := by
  simp only [setObjectAnimation]
  split
  · exact hst
  · have hrem : ∀ p ∈ (onObjectAnimationRemoved st
        st.objectAnimation).attributeAnimationInstances, P p.2.attributeAnimation := by
      cases ho : st.objectAnimation with
      | none => exact hst
      | some b =>
        simp only [onObjectAnimationRemoved]
        intro p hp
        rw [foldl_unbind_instances] at hp
        exact hst p (List.mem_of_mem_filter hp)
    cases oa with
    | none => exact hrem
    | some b =>
      exact foldl_bind_preserves_curves P b.attributeAnimations _ hrem
        (fun e he => hoa b rfl e he)

/-- The "attributeAnimation" loop of LoadXML: on success it leaves the bundle
reference alone and can only introduce the children's own curves. -/
theorem loadAttrChildren_spec (P : AttributeAnimation → Prop) (cs : List AttrAnimXML)
    (st s2 : State) (h : loadAttrChildren st cs = (s2, true))
    (hst : ∀ p ∈ st.attributeAnimationInstances, P p.2.attributeAnimation)
    (hcs : ∀ c ∈ cs, ∀ a, c.curve = some a → P a) :
    s2.objectAnimation = st.objectAnimation ∧
      ∀ p ∈ s2.attributeAnimationInstances, P p.2.attributeAnimation := by
  induction cs generalizing st with
  | nil =>
    rw [loadAttrChildren] at h
    injection h with h1 h2
    rw [← h1]
    exact ⟨rfl, hst⟩
  | cons c rest ih =>
    rw [loadAttrChildren] at h
    cases hc : c.curve with
    | none =>
      rw [hc] at h
      injection h with h1 h2
      cases h2
    | some a =>
      rw [hc] at h
      have hres := ih _ h
        (bind_preserves_curves P st c.name (some a) c.speed hst
          (fun a2 ha2 => by
            injection ha2 with e2
            rw [← e2]
            exact hcs c (List.mem_cons_self c rest) a hc))
        (fun c2 hc2 a2 ha2 => hcs c2 (List.mem_cons_of_mem c hc2) a2 ha2)
      exact ⟨hres.1.trans (bind_objectAnimation st c.name (some a) c.speed), hres.2⟩

/-! ### Claim theorems -/

/-- C1 (code bug shown at a failing input): `LoadXML` clears the bindings map
with a raw `Clear()` without erasing the matching descriptors from
`animatedNetworkAttributes_`.  Starting from a binder with one direct
binding on the network-replicated attribute "X" and reloading a document
that declares no animations, the load reports success and leaves no
bindings, yet the replication index still contains the descriptor of "X" —
so it is not the set of bound network-replicated attributes. -/
theorem C1_load_leaves_stale_replication_index :
    (loadXML preLoad emptyDoc).2 = true ∧
      (loadXML preLoad emptyDoc).1.attributeAnimationInstances = [] ∧
      (loadXML preLoad emptyDoc).1.animatedNetworkAttributes = [attrX] ∧
      isAnimatedNetworkAttribute (loadXML preLoad emptyDoc).1 attrX = true :=
  ⟨rfl, rfl, rfl, rfl⟩

/-- C4 (counterexample): the claim reads "bundle-owned means the curve's
bundle back-reference equals the Binder's current activeBundle" and demands
that every non-bundle-owned binding be written.  In a binder with no active
bundle holding a direct binding whose curve back-references bundle 7 (so the
binding is not bundle-owned in the claim's sense), `SaveXML` nevertheless
emits no standalone "attributeAnimation" child: the code skips on any
non-null back-reference, not on equality with the active bundle. -/
theorem C4_counterexample :
    ¬ ∀ p ∈ directBundleCurve.attributeAnimationInstances,
        p.2.attributeAnimation.objectAnimation ≠
            Option.map ObjectAnimation.id directBundleCurve.objectAnimation →
          (p.2.attributeInfo.name, p.2.attributeAnimation, p.2.speed) ∈
            (saveXML directBundleCurve).attributeAnimationChildren := by
  decide

/-- C4 (amended): during Save, a Binding Instance is emitted as a standalone
"attributeAnimation" element (with its attribute name and speed) if and only
if its curve carries no bundle back-reference at all; a binding whose curve
belongs to any bundle — whether or not that bundle is the active one — is
skipped. -/
theorem C4_amended_standalone_iff_no_backref (s : State) :
    (saveXML s).attributeAnimationChildren = standaloneSaveSpec s := rfl

/-- C8: Save embeds the active bundle inline as an "objectAnimation" child
if and only if a bundle is active and its resource name is empty. -/
theorem C8_inline_bundle_iff_anonymous (s : State) (b : ObjectAnimation) :
    (saveXML s).objectAnimationChild = some b ↔
      s.objectAnimation = some b ∧ b.name = "" := by
  cases h : s.objectAnimation with
  | none => simp [saveXML, h]
  | some b2 =>
    by_cases hn : b2.name = ""
    · simp only [saveXML, h, if_pos hn]
      constructor
      · intro he
        injection he with he2
        subst he2
        exact ⟨rfl, hn⟩
      · rintro ⟨he, -⟩
        injection he with he2
        rw [he2]
    · simp only [saveXML, h, if_neg hn]
      constructor
      · intro he; cases he
      · rintro ⟨he, hb⟩
        injection he with he2
        subst he2
        exact absurd hb hn

/-- C9: with `animationEnabled` false, any number of Tick calls leave the
whole state — bindings, playback progress, bundle reference, replication
index, write log — exactly unchanged (paused in place, not reset). -/
theorem C9_tick_disabled_no_op (s : State) (h : s.animationEnabled = false)
    (timeStep : Int) (n : Nat) :
    (fun st => updateAttributeAnimations st timeStep)^[n] s = s := by
  have h1 : updateAttributeAnimations s timeStep = s := by
    simp [updateAttributeAnimations, h]
  induction n with
  | zero => rfl
  | succ k ih => rw [Function.iterate_succ_apply, h1, ih]

/-- Witness for C9 at a concrete paused binder and three ticks. -/
theorem C9_witness :
    (fun st => updateAttributeAnimations st 5)^[3] sPaused = sPaused :=
  C9_tick_disabled_no_op sPaused rfl 5 3

/-- C10 (counterexample): the claim concludes that the reflective
"Object Animation" attribute path can never clear an existing bundle.  With
an empty resource cache, setting the attribute to the non-empty name of an
unresolvable resource passes the null cache result to `SetObjectAnimation`,
which clears the currently installed named bundle. -/
theorem C10_counterexample :
    (setObjectAnimation s0 (some bundleNamed)).objectAnimation = some bundleNamed ∧
      (setObjectAnimationAttr [] ⟨"Objects/Missing.xml"⟩
          (setObjectAnimation s0 (some bundleNamed))).objectAnimation = none :=
  ⟨rfl, rfl⟩

/-- C10 (amended): setting the reflective "Object Animation" attribute with
an empty resource name is a complete no-op, so the empty-name path can never
clear a bundle; a non-empty name is resolved through the resource cache and
the result — null when the cache cannot resolve it — is installed via
`SetObjectAnimation`, so an unresolvable non-empty name does clear an
existing bundle. -/
theorem C10_amended_empty_no_op_nonempty_installs
    (cache : List (String × ObjectAnimation)) (v : ResourceRef) (s : State) :
    (v.name = "" → setObjectAnimationAttr cache v s = s) ∧
    (v.name ≠ "" →
      setObjectAnimationAttr cache v s =
        setObjectAnimation s (cacheGetResource cache v.name)) := by
  constructor
  · intro h
    simp [setObjectAnimationAttr, h]
  · intro h
    simp [setObjectAnimationAttr, h]

/-- Witness for C10 (amended) at an empty name on a fresh binder. -/
theorem C10_amended_witness :
    setObjectAnimationAttr [] ⟨""⟩ s0 = s0 :=
  (C10_amended_empty_no_op_nonempty_installs [] ⟨""⟩ s0).1 rfl

/-- C2: a bind (non-null curve, not the identical-curve shortcut) that fails
validation — no descriptor resolves for the name (no attribute list at all,
or no matching entry) or the curve's value type differs from the resolved
descriptor's type — reports the failure and leaves the bindings map, the
replication index and the bundle reference exactly as before. -/
theorem C2_failed_bind_no_mutation (s : State) (n : String) (a : AttributeAnimation)
    (sp : Int)
    (hnc : ∀ i, getAttributeAnimationInstance s n = some i → i.attributeAnimation ≠ a)
    (hfail : resolvedAttributeInfo s n = none ∨
      ∃ info, resolvedAttributeInfo s n = some info ∧ a.valueType ≠ info.type) :
    (setAttributeAnimation s n (some a) sp).attributeAnimationInstances =
        s.attributeAnimationInstances ∧
      (setAttributeAnimation s n (some a) sp).animatedNetworkAttributes =
        s.animatedNetworkAttributes ∧
      (setAttributeAnimation s n (some a) sp).objectAnimation = s.objectAnimation ∧
      (setAttributeAnimation s n (some a) sp).errors = s.errors + 1 := by
  rw [bind_fail_state s n a sp hnc hfail]
  exact ⟨rfl, rfl, rfl, rfl⟩

/-- Witness for C2: binding to the unknown attribute name "Z". -/
theorem C2_witness :
    (setAttributeAnimation s0 "Z" (some curveA) 1).attributeAnimationInstances =
        s0.attributeAnimationInstances ∧
      (setAttributeAnimation s0 "Z" (some curveA) 1).animatedNetworkAttributes =
        s0.animatedNetworkAttributes ∧
      (setAttributeAnimation s0 "Z" (some curveA) 1).objectAnimation =
        s0.objectAnimation ∧
      (setAttributeAnimation s0 "Z" (some curveA) 1).errors = s0.errors + 1 :=
  C2_failed_bind_no_mutation s0 "Z" curveA 1
    (fun i h => absurd h (by simp [getAttributeAnimationInstance, s0]))
    (Or.inl rfl)

/-- C3: re-binding the identical curve to an already-bound name only updates
the instance's speed in place — the same instance, with its elapsed playback
preserved, remains; lookups of other names, the replication index, the
bundle, both hook counters, the error count and the write log are untouched
— whereas binding a different curve to an already-bound name (passing
validation) installs a fresh instance with elapsed playback reset to 0. -/
theorem C3_rebind_same_curve_speed_only (s : State) (n : String)
    (a : AttributeAnimation) (sp : Int) (i : AttributeAnimationInstance)
    (hci : getAttributeAnimationInstance s n = some i) :
    (i.attributeAnimation = a →
      getAttributeAnimationInstance (setAttributeAnimation s n (some a) sp) n =
          some { i with speed := sp } ∧
        (∀ m, m ≠ n →
          getAttributeAnimationInstance (setAttributeAnimation s n (some a) sp) m =
            getAttributeAnimationInstance s m) ∧
        (setAttributeAnimation s n (some a) sp).animatedNetworkAttributes =
          s.animatedNetworkAttributes ∧
        (setAttributeAnimation s n (some a) sp).objectAnimation = s.objectAnimation ∧
        (setAttributeAnimation s n (some a) sp).addedHooks = s.addedHooks ∧
        (setAttributeAnimation s n (some a) sp).removedHooks = s.removedHooks ∧
        (setAttributeAnimation s n (some a) sp).errors = s.errors ∧
        (setAttributeAnimation s n (some a) sp).writes = s.writes) ∧
    (i.attributeAnimation ≠ a →
      ∀ info, resolvedAttributeInfo s n = some info → a.valueType = info.type →
        getAttributeAnimationInstance (setAttributeAnimation s n (some a) sp) n =
          some { attributeInfo := info, attributeAnimation := a,
                 speed := sp, elapsed := 0 }) := by
  constructor
  · intro hsame
    have hsc : (i.attributeAnimation == a) = true := by simpa using hsame
    have hred : setAttributeAnimation s n (some a) sp =
        { s with attributeAnimationInstances :=
            (s.attributeAnimationInstances.map
              (fun p => if p.1 = n then (p.1, { p.2 with speed := sp }) else p)) } := by
      simp only [setAttributeAnimation, hci, hsc]
      rfl
    rw [hred]
    refine ⟨?_, ?_, rfl, rfl, rfl, rfl, rfl, rfl⟩
    · rw [getAttributeAnimationInstance] at hci ⊢
      rcases Option.map_eq_some'.mp hci with ⟨p, hp, hpi⟩
      simp only [find_speed_update, hp, Option.map_some']
      rw [hpi]
    · intro m hm
      rw [getAttributeAnimationInstance, getAttributeAnimationInstance]
      rw [find_speed_update_other _ _ _ _ hm]
  · intro hne info hres hty
    have hbi := bind_success_instances s n a sp info hres hty
      (fun j hj => by
        rw [hci] at hj
        injection hj with e
        rw [← e]
        exact hne)
    rw [getAttributeAnimationInstance, hbi, find_assocSet]
    rfl

/-- C5: with animation enabled, Tick first advances every instance of the
pre-tick bindings map — logging exactly one attribute write per pre-tick
binding, the finishing ones included — and only afterwards evicts exactly
the finished names, the completion test being evaluated on the pre-tick
instances (so the scan never works on a map mutated mid-scan). -/
theorem C5_tick_applies_then_evicts (s : State) (timeStep : Int)
    (h : s.animationEnabled = true) :
    (updateAttributeAnimations s timeStep).writes =
        s.writes ++
          s.attributeAnimationInstances.map (fun p => p.2.attributeInfo.name) ∧
      (updateAttributeAnimations s timeStep).attributeAnimationInstances =
        ((s.attributeAnimationInstances.map
            (fun p => (p.1, (instanceUpdate p.2 timeStep).1))).filter
          (fun p =>
            !(((s.attributeAnimationInstances.filter
                  (fun q => (instanceUpdate q.2 timeStep).2)).map
                (fun q => q.2.attributeInfo.name)).contains p.1))) := by
  have hred : updateAttributeAnimations s timeStep =
      (((s.attributeAnimationInstances.map
            (fun p => (p.1, instanceUpdate p.2 timeStep))).filter
          (fun p => p.2.2)).map (fun p => p.2.1.attributeInfo.name)).foldl
        (fun st n => setAttributeAnimation st n none 1)
        { s with
            attributeAnimationInstances :=
              ((s.attributeAnimationInstances.map
                (fun p => (p.1, instanceUpdate p.2 timeStep))).map
                  (fun p => (p.1, p.2.1))),
            writes :=
              (s.writes ++
                (s.attributeAnimationInstances.map
                  (fun p => (p.1, instanceUpdate p.2 timeStep))).map
                    (fun p => p.2.1.attributeInfo.name)) } := by
    simp only [updateAttributeAnimations, h, Bool.not_true, Bool.false_eq_true, if_false]
  constructor
  · rw [hred, foldl_unbind_writes]
    simp only [List.map_map]
    rfl
  · rw [hred, foldl_unbind_instances]
    simp only [List.filter_map, List.map_map]
    rfl

/-- C6: SetBundle is a no-op when the new bundle is identical to the current
one; otherwise it equals the three-phase protocol — first the removal pass
over the pre-call state (which collects the bundle-owned names before any
removal and unbinds each), then replacement of the bundle reference, then the
per-entry bind of the new bundle's mapping — so the final bundle reference
is the new bundle, and (for duplicate-free binding keys) the removal hook
fires exactly once per pre-call binding owned by the old bundle, none of them
fired by the bind phase. -/
theorem C6_set_bundle_protocol (s : State) (nb : Option ObjectAnimation) :
    (nb = s.objectAnimation → setObjectAnimation s nb = s) ∧
      (nb ≠ s.objectAnimation →
        setObjectAnimation s nb =
          onObjectAnimationAdded
            { onObjectAnimationRemoved s s.objectAnimation with
                objectAnimation := nb } nb) ∧
      (nb ≠ s.objectAnimation → (setObjectAnimation s nb).objectAnimation = nb) ∧
      (∀ b, s.objectAnimation = some b → nb ≠ s.objectAnimation →
        (s.attributeAnimationInstances.map Prod.fst).Nodup →
        (setObjectAnimation s nb).removedHooks =
          s.removedHooks + (bundleOwnedNames s b).length) := by
  refine ⟨?_, ?_, ?_, ?_⟩
  · intro he
    rw [setObjectAnimation, if_pos he]
  · intro hne
    rw [setObjectAnimation, if_neg hne]
  · intro hne
    rw [setObjectAnimation, if_neg hne, added_objectAnimation]
  · intro b hb hne hnd
    rw [setObjectAnimation, if_neg hne, added_removedHooks]
    have hrh : ({ onObjectAnimationRemoved s s.objectAnimation with
        objectAnimation := nb } : State).removedHooks =
        (onObjectAnimationRemoved s s.objectAnimation).removedHooks := rfl
    rw [hrh, hb]
    exact foldl_unbind_removedHooks (bundleOwnedNames s b) s
      (bundleOwnedNames_present s b) (bundleOwnedNames_nodup s b hnd)

/-- C7: a successful Load leaves nothing of the pre-load animation state:
the resulting bundle reference is exactly the one the document declares
(none when it declares none, regardless of what was installed before), and
every remaining Binding Instance wraps a curve introduced by the document
itself — the unconditional clear before the import makes a reload
idempotent whether or not the new document declares any animations. -/
theorem C7_load_clears_previous_state (s s2 : State) (src : XMLSource)
    (h : loadXML s src = (s2, true)) :
    s2.objectAnimation =
        (match src.objectAnimationChild with
         | some (some oa) => some oa
         | _ => none) ∧
      ∀ p ∈ s2.attributeAnimationInstances, p.2.attributeAnimation ∈ docCurves src := by
  by_cases hb : src.baseLoadOk = true
  · rw [loadXML] at h
    rw [if_neg (by simp [hb])] at h
    cases hoc : src.objectAnimationChild with
    | none =>
      rw [hoc] at h
      have hspec := loadAttrChildren_spec (fun a => a ∈ docCurves src)
        src.attributeAnimationChildren _ s2 h
        (fun p hp => by cases hp)
        (fun c hc a ha => by
          rw [docCurves, hoc]
          exact List.mem_append.mpr (Or.inr (List.mem_filterMap.mpr ⟨c, hc, ha⟩)))
      refine ⟨?_, hspec.2⟩
      rw [hspec.1]
      exact setObjectAnimation_ref s none
    | some inner =>
      cases inner with
      | none =>
        rw [hoc] at h
        injection h with h1 h2
        cases h2
      | some oa =>
        rw [hoc] at h
        have hspec := loadAttrChildren_spec (fun a => a ∈ docCurves src)
          src.attributeAnimationChildren _ s2 h
          (setObjectAnimation_preserves_curves _ _ _
            (fun p hp => by cases hp)
            (fun b hbb e he => by
              injection hbb with e2
              rw [docCurves, hoc]
              refine List.mem_append.mpr (Or.inl ?_)
              show e.2.1 ∈ List.map (fun e => e.2.1) oa.attributeAnimations
              rw [e2]
              exact List.mem_map.mpr ⟨e, he, rfl⟩))
          (fun c hc a ha => by
            rw [docCurves, hoc]
            exact List.mem_append.mpr (Or.inr (List.mem_filterMap.mpr ⟨c, hc, ha⟩)))
        refine ⟨?_, hspec.2⟩
        rw [hspec.1]
        exact setObjectAnimation_ref _ (some oa)
  · rw [loadXML] at h
    rw [if_pos (by simp [hb])] at h
    injection h with h1 h2
    cases h2

/-- Witness for C7: reloading a binder that holds a direct binding with a
document declaring an anonymous bundle and one standalone curve. -/
theorem C7_witness :
    (loadXML preLoad fullDoc).1.objectAnimation = some bundleAnon ∧
      ∀ p ∈ (loadXML preLoad fullDoc).1.attributeAnimationInstances,
        p.2.attributeAnimation ∈ docCurves fullDoc := by
  have h := C7_load_clears_previous_state preLoad (loadXML preLoad fullDoc).1 fullDoc rfl
  exact ⟨h.1, h.2⟩

/-- Witness for C6: clearing the installed anonymous bundle fires the
removal hook exactly once, for its single imported binding. -/
theorem C6_witness :
    (setObjectAnimation withBundle none).removedHooks = 1 := by
  have h := (C6_set_bundle_protocol withBundle none).2.2.2 bundleAnon rfl
    (by decide) (by decide)
  exact h.trans (by decide)

/-- Witness for C5: ticking a binder holding a finishing instance on "X" and
a running one on "Y" writes both attributes and evicts only "X". -/
theorem C5_witness :
    (updateAttributeAnimations tickState 1).writes = ["X", "Y"] ∧
      (updateAttributeAnimations tickState 1).attributeAnimationInstances =
        [("Y", ⟨attrY, curveY, 1, 1⟩)] := by
  have h := C5_tick_applies_then_evicts tickState 1 rfl
  exact ⟨h.1.trans (by decide), h.2.trans (by decide)⟩

/-- Witness for C3: rebinding the same curve at speed 2 preserves the
elapsed playback of 4. -/
theorem C3_witness :
    getAttributeAnimationInstance (setAttributeAnimation advX "X" (some curveA) 2) "X" =
      some ⟨attrX, curveA, 2, 4⟩ :=
  ((C3_rebind_same_curve_speed_only advX "X" curveA 2 ⟨attrX, curveA, 1, 4⟩ rfl).1 rfl).1

end Animatable
